import Mathlib

/-!
Verification of the HK horse-racing results scraper (RacingData_Scraper.py).

The development shallowly embeds the pure/extraction logic of the script:

* Python strings are modelled as Lean `String` or `List Char`; `str.strip()`
  is modelled by `pyStrip` (strip leading and trailing whitespace); `"pat" in s` by `listContains`; `s.isdigit()`
  by `isdigitL` (ASCII decimal digits; the script only meets ASCII race
  numbers); `int(s)` on a digit string by `digitsVal`.
* `url.split("RaceNo=")` is modelled by `pySplit` (left-to-right,
  non-overlapping occurrences of the separator), written with an explicit
  fuel argument so that it is structurally recursive and kernel-evaluable;
  the fuel `s.length` always suffices because each step consumes at least
  one character.
* Python `sorted(..., key=...)` is a stable ascending sort; it is modelled
  by `List.insertionSort`, which Mathlib shows is sorted, a permutation,
  and stable.
* Selenium calls that can raise are modelled by `Except Exn` values
  supplied by an environment; Python `try/except` blocks are translated
  to explicit matches that catch exactly the exception classes the source
  catches (`TimeoutException`, `NoSuchElementException`, bare `Exception`).
* The Python `set` of race URLs is modelled by an insertion-ordered
  duplicate-free list; the iteration order of a CPython set is unspecified,
  so ordering claims about the discoverer are settled against the sort
  applied to an arbitrary input order.
-/

/-- Embedding of the Python substring test `pat in s` (for nonempty `pat`):
true iff `pat` occurs as a contiguous run in `s`. -/
def listContains (pat : List Char) : List Char → Bool
  | [] => pat.isEmpty
  | c :: rest => pat.isPrefixOf (c :: rest) || listContains pat rest

/-- Numeric value of a list of decimal digit characters, as computed by
Python `int` on a digit-only string. -/
def digitsVal (l : List Char) : Nat :=
  l.foldl (fun n c => n * 10 + (c.toNat - 48)) 0

/-- Embedding of Python `str.isdigit()` restricted to ASCII: true iff the
string is nonempty and all characters are decimal digits. -/
def isdigitL (l : List Char) : Bool :=
  !l.isEmpty && l.all Char.isDigit

/-- Embedding of Python `str.strip()`: remove leading and trailing
whitespace. -/
def pyStrip (s : String) : String :=
  ⟨((s.data.dropWhile Char.isWhitespace).reverse.dropWhile Char.isWhitespace).reverse⟩

/-- The separator the script splits race URLs on, line 123 of the source. -/
def SEP : List Char := "RaceNo=".toList

theorem SEP_eq : SEP = ['R', 'a', 'c', 'e', 'N', 'o', '='] := rfl

/-- Embedding of Python `s.split("RaceNo=")`: splits at each
non-overlapping occurrence of `SEP`, scanning left to right.  The `fuel`
argument makes the recursion structural; `pySplit` below instantiates it
with `s.length`, which is enough because every step consumes at least one
character. -/
def pySplitF : Nat → List Char → List (List Char)
  | _, [] => [[]]
  | 0, s => [s]
  | fuel + 1, c :: rest =>
    if SEP.isPrefixOf (c :: rest) then
      [] :: pySplitF fuel ((c :: rest).drop SEP.length)
    else
      match pySplitF fuel rest with
      | [] => [[c]]
      | x :: xs => (c :: x) :: xs

/-- Python `s.split("RaceNo=")`. -/
def pySplit (s : List Char) : List (List Char) :=
  pySplitF s.length s

/-- Python `s.split("RaceNo=")[-1]`: the last chunk of the split (the
split of a string is never empty, so the default is never used). -/
def splitLast (s : List Char) : List Char :=
  (pySplit s).getLastD []

/-- The sort key of line 123 of the source:
`int(url.split("RaceNo=")[-1]) if "RaceNo=" in url and
url.split("RaceNo=")[-1].isdigit() else 0`. -/
def raceNoKey (url : String) : Nat :=
  let s := url.toList
  if listContains SEP s && isdigitL (splitLast s) then digitsVal (splitLast s) else 0

/-- Modelled from the spec wording for claim C10: the substring of `s`
following the last occurrence of the separator, or `none` when the
separator does not occur.  Occurrences starting later in the string are
preferred. -/
def afterLastSep : List Char → Option (List Char)
  | [] => none
  | c :: rest =>
    match afterLastSep rest with
    | some r => some r
    | none =>
      if SEP.isPrefixOf (c :: rest) then some ((c :: rest).drop SEP.length) else none

/-- Modelled from the spec wording for claim C10: the key equals the
integer value of the substring following the last occurrence of
`RaceNo=` exactly when that entire trailing substring consists of
decimal digits, and 0 otherwise. -/
def raceNoKeySpec (url : String) : Nat :=
  match afterLastSep url.toList with
  | none => 0
  | some suf => if isdigitL suf then digitsVal suf else 0

/-- Modelled from the spec wording for claim C1: the race number of a URL
read as a query parameter, i.e. the digits of the `RaceNo` parameter value
(the text after `RaceNo=` up to the next `&` or the end of the URL), and 0
when the parameter is absent or its value is not numeric. -/
def claimRaceNo (url : String) : Nat :=
  match afterLastSep url.toList with
  | none => 0
  | some suf =>
    let v := suf.takeWhile (fun c => c != '&')
    if isdigitL v then digitsVal v else 0

/-- Comparison used by the `sorted` call on lines 121-124: ascending by
`raceNoKey`. -/
def raceNoLe (a b : String) : Prop :=
  raceNoKey a ≤ raceNoKey b

instance : DecidableRel raceNoLe := fun _ _ => Nat.decLe _ _

instance : IsTotal String raceNoLe := ⟨fun a b => Nat.le_total (raceNoKey a) (raceNoKey b)⟩

instance : IsTrans String raceNoLe := ⟨fun _ _ _ hab hbc => Nat.le_trans hab hbc⟩

/-- Embedding of the `sorted_race_urls` computation (lines 121-124).
Python `sorted` with a key function is the unique stable ascending sort,
which `List.insertionSort` implements. -/
def sortedRaceUrls (urls : List String) : List String :=
  List.insertionSort raceNoLe urls

/-- Substring pattern the discoverer requires in an href (line 117). -/
def LOCALRESULTS : List Char := "LocalResults.aspx".toList

/-- Substring pattern the discoverer rejects in an href (line 117). -/
def RESULTSALL : List Char := "ResultsAll.aspx".toList

/-- One step of building the candidate race-URL set (lines 115-118): add
the href when it is non-null, contains `LocalResults.aspx`, does not
contain `ResultsAll.aspx` and is not already in the set. -/
def addHref (acc : List String) (h : Option String) : List String :=
  match h with
  | none => acc
  | some href =>
    if listContains LOCALRESULTS href.toList && !listContains RESULTSALL href.toList
        && !acc.contains href
    then acc ++ [href] else acc

/-- Embedding of lines 114-118: the candidate race-URL set, seeded with the
landing-page URL and extended with each matching anchor href.
The Python `set` is modelled as an insertion-ordered duplicate-free list;
a `none` href models a null `get_attribute` result (the `if href` guard
also drops the empty string, which the `LocalResults.aspx` containment
test drops anyway). -/
def racePageUrls (initialUrl : String) (hrefs : List (Option String)) : List String :=
  hrefs.foldl addHref [initialUrl]

/-- Exception classes distinguished by the try/except blocks of the
source: Selenium TimeoutException, Selenium NoSuchElementException, and
any other unexpected exception. -/
inductive Exn where
  | timeout
  | noSuchElement
  | other
deriving DecidableEq, Repr

/-- An anchor element inside a table cell: its visible text and its href
target. -/
structure Anchor where
  text : String
  href : String
deriving DecidableEq, Repr

/-- A rendered table cell, holding everything the extractor reads from
it: its visible text, the first anchor descendant when one exists, and
the texts (in document order) of the nested container sub-elements the
running-position field is read from. -/
structure Cell where
  text : String
  anchor : Option Anchor
  subdivs : List String
deriving DecidableEq, Repr

/-- A cell with no content; only used as an out-of-range default under a
length guard that makes it unreachable. -/
def emptyCell : Cell := ⟨"", none, []⟩

/-- Embedding of extract_horse_jockey_trainer_info (lines 50-59): when the
cell contains an anchor, the stripped anchor text and the anchor href;
otherwise the stripped cell text and the sentinel. -/
def extract_horse_jockey_trainer_info (cell_element : Cell) : String × String :=
  match cell_element.anchor with
  | some a => (pyStrip a.text, a.href)
  | none => (pyStrip cell_element.text, "N/A")

/-- Embedding of get_safe_text (lines 43-48) over an abstract lookup
result: a successful lookup yields the stripped text, a
NoSuchElementException yields the default, any other exception
propagates. -/
def get_safe_text (lookup : Except Exn String) (default : String) : Except Exn String :=
  match lookup with
  | .ok s => .ok (pyStrip s)
  | .error .noSuchElement => .ok default
  | .error e => .error e

/-- Race-level metadata (lines 139-146): header, details text, specific
name, going, course. -/
structure RaceInfo where
  header : String
  details : String
  name : String
  going : String
  course : String
deriving DecidableEq, Repr

/-- The all-sentinel race info the source initializes with on line 139. -/
def raceInfoNA : RaceInfo := ⟨"N/A", "N/A", "N/A", "N/A", "N/A"⟩

/-- One emitted per-horse result row: the horse_data dictionary of lines
164-187. -/
structure HorseData where
  meetDate : String
  raceURL : String
  raceHeader : String
  raceDetails : String
  raceSpecificName : String
  raceGoing : String
  raceCourse : String
  placing : String
  horseNo : String
  horseName : String
  horseLink : String
  jockeyName : String
  jockeyLink : String
  trainerName : String
  trainerLink : String
  actualWt : String
  declarHorseWt : String
  draw : String
  lbw : String
  runningPosition : String
  finishTime : String
  winOdds : String
deriving DecidableEq, Repr

/-- Embedding of one iteration of the body-row loop (lines 156-188): a row
with fewer than 12 cells is skipped, otherwise exactly one HorseData is
built from fixed cell positions.  The source computes the jockey and
trainer name/link pairs twice; the computation is pure, so computing each
pair once is observably identical. -/
def processRow (meetDate raceUrl : String) (info : RaceInfo) (cols : List Cell) :
    Option HorseData :=
  if cols.length < 12 then none
  else
    let c : Nat → Cell := fun i => cols.getD i emptyCell
    let horse := extract_horse_jockey_trainer_info (c 2)
    let jockey := extract_horse_jockey_trainer_info (c 3)
    let trainer := extract_horse_jockey_trainer_info (c 4)
    some
      { meetDate := meetDate
        raceURL := raceUrl
        raceHeader := info.header
        raceDetails := info.details
        raceSpecificName := info.name
        raceGoing := info.going
        raceCourse := info.course
        placing := pyStrip (c 0).text
        horseNo := pyStrip (c 1).text
        horseName := horse.1
        horseLink := horse.2
        jockeyName := jockey.1
        jockeyLink := jockey.2
        trainerName := trainer.1
        trainerLink := trainer.2
        actualWt := pyStrip (c 5).text
        declarHorseWt := pyStrip (c 6).text
        draw := pyStrip (c 7).text
        lbw := pyStrip (c 8).text
        runningPosition :=
          String.intercalate " " (((c 9).subdivs.map pyStrip).filter (fun s => s ≠ ""))
        finishTime := pyStrip (c 10).text
        winOdds := pyStrip (c 11).text }

/-- Environment of one race-page visit: the outcome of each Selenium
interaction the source performs for a race.  A `none` load means the page
loaded and the performance table appeared; `some e` means `driver.get` or
the wait raised `e`.  Each info cell lookup either returns raw text or
raises.  perfRows is the outcome of locating the performance table and
splitting its body rows into cells (an exception anywhere in that block
is caught by the bare `except Exception` of line 191). -/
structure RaceEnv where
  load : Option Exn
  infoFind : Option Exn
  headerCell : Except Exn String
  detailsCell : Except Exn String
  nameCell : Except Exn String
  goingCell : Except Exn String
  courseCell : Except Exn String
  perfRows : Except Exn (List (List Cell))

/-- Embedding of the race-info block (lines 138-149): all five fields
start as the sentinel; failing to find the info table with
NoSuchElementException leaves them all as the sentinel (caught on line
148); any other exception there, or a non-NoSuchElement exception inside
any get_safe_text call, propagates. -/
def extractRaceInfo (renv : RaceEnv) : Except Exn RaceInfo :=
  match renv.infoFind with
  | some .noSuchElement => .ok raceInfoNA
  | some e => .error e
  | none =>
    match get_safe_text renv.headerCell "N/A" with
    | .error e => .error e
    | .ok h =>
      match get_safe_text renv.detailsCell "N/A" with
      | .error e => .error e
      | .ok d =>
        match get_safe_text renv.nameCell "N/A" with
        | .error e => .error e
        | .ok n =>
          match get_safe_text renv.goingCell "N/A" with
          | .error e => .error e
          | .ok g =>
            match get_safe_text renv.courseCell "N/A" with
            | .error e => .error e
            | .ok c => .ok ⟨h, d, n, g, c⟩

/-- Embedding of one iteration of the race loop (lines 128-194): a load
timeout skips the race (line 134); any other load exception propagates
uncaught; a race-info failure other than NoSuchElementException
propagates; any exception while extracting the performance table is
caught by the bare `except Exception` of line 191 and yields no rows for
this race.  On success the rows the body-row loop appends are returned. -/
def processRace (renv : RaceEnv) (meetDate raceUrl : String) :
    Except Exn (List HorseData) :=
  match renv.load with
  | some .timeout => .ok []
  | some e => .error e
  | none =>
    match extractRaceInfo renv with
    | .error e => .error e
    | .ok info =>
      match renv.perfRows with
      | .error _ => .ok []
      | .ok rows => .ok (rows.filterMap (processRow meetDate raceUrl info))

/-- Environment of one meet date: the outcome of each page-level
interaction.  discovery is the outcome of collecting the race-link hrefs
(lines 112-118, outside any try block); race gives the environment of
each race-page URL. -/
structure MeetEnv where
  fileExists : Bool
  landingLoad : Option Exn
  noRaceFind : Option Exn
  discovery : Except Exn (List (Option String))
  race : String → RaceEnv

/-- Outcome of processing one date of the range: either the date is
skipped for one of the reasons the source handles, or the meet completes
with its accumulated rows (writing a file exactly when some row was
collected), or an uncaught exception aborts the whole run. -/
inductive DateResult where
  | skippedExisting
  | skippedLandingTimeout
  | skippedLandingError
  | skippedNoRace
  | completed (rows : List HorseData) (wroteFile : Bool)
  | aborted (e : Exn)
deriving DecidableEq, Repr

/-- The race loop of lines 128-194, also counting page loads
(`driver.get` calls).  An uncaught exception in a race aborts the run
with the rows collected so far discarded. -/
def processRaces (menv : MeetEnv) (meetDate : String) :
    List String → List HorseData → Nat → DateResult × Nat
  | [], acc, loads => (.completed acc (!acc.isEmpty), loads)
  | url :: rest, acc, loads =>
    match processRace (menv.race url) meetDate url with
    | .error e => (.aborted e, loads + 1)
    | .ok rows => processRaces menv meetDate rest (acc ++ rows) (loads + 1)

/-- Embedding of one iteration of the main date loop (lines 66-202),
returning the date outcome and the number of page loads performed for
this date.  The skip check of lines 75-77 runs before any page load; the
landing try of lines 81-94 catches both TimeoutException and any other
exception; the no-race check of lines 97-106 catches only
NoSuchElementException; race-URL discovery (lines 112-124) is outside
every try block, so an exception there propagates and aborts the run. -/
def processDate (menv : MeetEnv) (meetDate initialUrl : String) : DateResult × Nat :=
  if menv.fileExists then (.skippedExisting, 0)
  else
    match menv.landingLoad with
    | some .timeout => (.skippedLandingTimeout, 1)
    | some _ => (.skippedLandingError, 1)
    | none =>
      match menv.noRaceFind with
      | none => (.skippedNoRace, 1)
      | some .noSuchElement =>
        match menv.discovery with
        | .error e => (.aborted e, 1)
        | .ok hrefs =>
          processRaces menv meetDate (sortedRaceUrls (racePageUrls initialUrl hrefs)) [] 1
      | some e => (.aborted e, 1)

theorem isPrefixOf_append_self (p t : List Char) : p.isPrefixOf (p ++ t) = true := by
  induction p with
  | nil => simp
  | cons a as ih => simp [List.isPrefixOf, ih]

theorem eq_append_drop_of_isPrefixOf :
    ∀ {p s : List Char}, p.isPrefixOf s = true → s = p ++ s.drop p.length := by
  intro p
  induction p with
  | nil => intro s _; simp
  | cons a as ih =>
    intro s h
    match s with
    | [] => simp [List.isPrefixOf] at h
    | b :: bs =>
      simp only [List.isPrefixOf, Bool.and_eq_true, beq_iff_eq] at h
      have hb := ih h.2
      calc b :: bs = a :: bs := by rw [h.1]
        _ = a :: (as ++ bs.drop as.length) := by rw [← hb]
        _ = (a :: as) ++ (b :: bs).drop (a :: as).length := by simp

theorem sep_not_prefixOf_cons {c : Char} (hc : c ≠ 'R') (l : List Char) :
    SEP.isPrefixOf (c :: l) = false := by
  rw [SEP_eq]
  simp only [List.isPrefixOf, Bool.and_eq_true, beq_iff_eq]
  simp only [Bool.and_eq_false_iff]
  left
  exact beq_eq_false_iff_ne.mpr fun h => hc h.symm

theorem afterLastSep_cons (c : Char) (rest : List Char) :
    afterLastSep (c :: rest) =
      match afterLastSep rest with
      | some r => some r
      | none =>
        if SEP.isPrefixOf (c :: rest) then some ((c :: rest).drop SEP.length) else none := by
  rw [afterLastSep]

theorem afterLastSep_cons_of_not_match {c : Char} {rest : List Char}
    (h : SEP.isPrefixOf (c :: rest) = false) :
    afterLastSep (c :: rest) = afterLastSep rest := by
  rw [afterLastSep_cons, h]
  cases afterLastSep rest <;> simp

theorem afterLastSep_sep_append (t : List Char) :
    afterLastSep (SEP ++ t) = some ((afterLastSep t).getD t) := by
  have hR : SEP ++ t = 'R' :: 'a' :: 'c' :: 'e' :: 'N' :: 'o' :: '=' :: t := by
    rw [SEP_eq]; rfl
  have htail : afterLastSep ('a' :: 'c' :: 'e' :: 'N' :: 'o' :: '=' :: t) = afterLastSep t := by
    rw [afterLastSep_cons_of_not_match (sep_not_prefixOf_cons (by decide) _),
        afterLastSep_cons_of_not_match (sep_not_prefixOf_cons (by decide) _),
        afterLastSep_cons_of_not_match (sep_not_prefixOf_cons (by decide) _),
        afterLastSep_cons_of_not_match (sep_not_prefixOf_cons (by decide) _),
        afterLastSep_cons_of_not_match (sep_not_prefixOf_cons (by decide) _),
        afterLastSep_cons_of_not_match (sep_not_prefixOf_cons (by decide) _)]
  have hp : SEP.isPrefixOf ('R' :: 'a' :: 'c' :: 'e' :: 'N' :: 'o' :: '=' :: t) = true := by
    rw [← hR]; exact isPrefixOf_append_self SEP t
  rw [hR, afterLastSep_cons, htail]
  cases h : afterLastSep t with
  | some r => simp
  | none =>
    simp only [hp, if_true]
    rfl

theorem afterLastSep_isSome (s : List Char) :
    (afterLastSep s).isSome = listContains SEP s := by
  induction s with
  | nil => rfl
  | cons c rest ih =>
    rw [afterLastSep_cons, listContains]
    cases h : afterLastSep rest with
    | some r =>
      have : listContains SEP rest = true := by rw [← ih, h]; rfl
      simp [this]
    | none =>
      have : listContains SEP rest = false := by rw [← ih, h]; rfl
      rw [this]
      cases hp : SEP.isPrefixOf (c :: rest) <;> simp [hp]

theorem pySplitF_ne_nil (fuel : Nat) (s : List Char) : pySplitF fuel s ≠ [] := by
  match fuel, s with
  | _, [] => simp [pySplitF]
  | 0, c :: rest => simp [pySplitF]
  | fuel + 1, c :: rest =>
    rw [pySplitF]
    split
    · simp
    · split <;> simp

theorem pySplitF_of_not_contains :
    ∀ (fuel : Nat) (s : List Char), listContains SEP s = false → pySplitF fuel s = [s] := by
  intro fuel
  induction fuel with
  | zero =>
    intro s h
    match s with
    | [] => rfl
    | c :: rest => rfl
  | succ fuel ih =>
    intro s h
    match s with
    | [] => rfl
    | c :: rest =>
      rw [listContains, Bool.or_eq_false_iff] at h
      rw [pySplitF, if_neg (by simp [h.1]), ih rest h.2]

theorem pySplitF_length_ge_two :
    ∀ (fuel : Nat) (s : List Char), s.length ≤ fuel → listContains SEP s = true →
      1 < (pySplitF fuel s).length := by
  intro fuel
  induction fuel with
  | zero =>
    intro s hlen h
    match s with
    | [] => simp [listContains, SEP] at h
    | c :: rest => simp at hlen
  | succ fuel ih =>
    intro s hlen h
    match s with
    | [] => simp [listContains, SEP] at h
    | c :: rest =>
      rw [pySplitF]
      split
      · have h0 := List.length_pos.mpr (pySplitF_ne_nil fuel ((c :: rest).drop SEP.length))
        simp only [List.length_cons]
        omega
      · rename_i hp
        rw [listContains, Bool.or_eq_true] at h
        rcases h with h | h
        · rw [h] at hp; exact absurd rfl hp
        · have hr : rest.length ≤ fuel := Nat.le_of_succ_le_succ hlen
          have := ih rest hr h
          cases hps : pySplitF fuel rest with
          | nil => exact absurd hps (pySplitF_ne_nil fuel rest)
          | cons x xs =>
            rw [hps] at this
            simpa using this

theorem getLastD_irrel {xs : List (List Char)} (h : xs ≠ []) (d1 d2 : List Char) :
    xs.getLastD d1 = xs.getLastD d2 := by
  rw [List.getLastD_eq_getLast?, List.getLastD_eq_getLast?, List.getLast?_eq_getLast xs h]
  rfl

theorem pySplitF_getLastD :
    ∀ (fuel : Nat) (s : List Char), s.length ≤ fuel →
      (pySplitF fuel s).getLastD [] = (afterLastSep s).getD s := by
  intro fuel
  induction fuel with
  | zero =>
    intro s hlen
    match s with
    | [] => rfl
    | c :: rest => simp at hlen
  | succ fuel ih =>
    intro s hlen
    match s with
    | [] => rfl
    | c :: rest =>
      rw [pySplitF]
      split
      · rename_i hp
        have hs : c :: rest = SEP ++ (c :: rest).drop SEP.length :=
          eq_append_drop_of_isPrefixOf hp
        have hlt : ((c :: rest).drop SEP.length).length ≤ fuel := by
          have h7 : SEP.length = 7 := rfl
          simp only [List.length_cons] at hlen
          simp only [List.length_drop, h7, List.length_cons]
          omega
        have hafter := afterLastSep_sep_append ((c :: rest).drop SEP.length)
        rw [← hs] at hafter
        rw [List.getLastD_cons, ih _ hlt, hafter]
        rfl
      · rename_i hp
        have hp2 : SEP.isPrefixOf (c :: rest) = false := by
          cases h2 : SEP.isPrefixOf (c :: rest)
          · rfl
          · exact absurd h2 hp
        have hrlen : rest.length ≤ fuel := Nat.le_of_succ_le_succ hlen
        have hstep := afterLastSep_cons_of_not_match hp2
        cases hps : pySplitF fuel rest with
        | nil => exact absurd hps (pySplitF_ne_nil fuel rest)
        | cons x xs =>
          cases hc : listContains SEP rest with
          | true =>
            have hlen2 := pySplitF_length_ge_two fuel rest hrlen hc
            rw [hps] at hlen2
            have hxs : xs ≠ [] := by
              match xs with
              | [] => simp at hlen2
              | _ :: _ => simp
            have hsome : (afterLastSep rest).isSome = true := by
              rw [afterLastSep_isSome, hc]
            cases hals : afterLastSep rest with
            | none => rw [hals] at hsome; simp at hsome
            | some r =>
              have hih := ih rest hrlen
              rw [hps, hals] at hih
              simp only [List.getLastD_cons] at hih ⊢
              rw [getLastD_irrel hxs (c :: x) x, hih, hstep, hals]
              rfl
          | false =>
            have hone := pySplitF_of_not_contains fuel rest hc
            rw [hps] at hone
            have hx : x = rest ∧ xs = [] := by
              cases hone; exact ⟨rfl, rfl⟩
            have hnone : afterLastSep rest = none := by
              have := afterLastSep_isSome rest
              rw [hc] at this
              cases hals : afterLastSep rest with
              | none => rfl
              | some r => rw [hals] at this; simp at this
            rw [hx.1, hx.2, hstep, hnone]
            rfl

theorem splitLast_eq_afterLastSep (s : List Char) :
    splitLast s = (afterLastSep s).getD s :=
  pySplitF_getLastD s.length s (Nat.le_refl _)

theorem raceNoKey_eq_spec (url : String) : raceNoKey url = raceNoKeySpec url := by
  simp only [raceNoKey, raceNoKeySpec]
  cases h : afterLastSep url.toList with
  | none =>
    have hc : listContains SEP url.toList = false := by
      rw [← afterLastSep_isSome, h]; rfl
    rw [hc]
    simp
  | some r =>
    have hc : listContains SEP url.toList = true := by
      rw [← afterLastSep_isSome, h]; rfl
    have hl : splitLast url.toList = r := by
      rw [splitLast_eq_afterLastSep, h]; rfl
    rw [hc, hl]
    simp

theorem mem_addHref {x : String} {acc : List String} (h : Option String)
    (hx : x ∈ acc) : x ∈ addHref acc h := by
  match h with
  | none => exact hx
  | some href =>
    rw [addHref]
    split
    · exact List.mem_append_left _ hx
    · exact hx

theorem mem_foldl_addHref :
    ∀ (l : List (Option String)) (acc : List String) (x : String),
      x ∈ acc → x ∈ l.foldl addHref acc := by
  intro l
  induction l with
  | nil => intro acc x hx; exact hx
  | cons h t ih => intro acc x hx; exact ih (addHref acc h) x (mem_addHref h hx)

/-- A race-info cell lookup that the source recovers from: either the cell
is found or the lookup raises exactly NoSuchElementException. -/
def benignLookup (r : Except Exn String) : Bool :=
  match r with
  | .ok _ => true
  | .error .noSuchElement => true
  | .error _ => false

/-- The field value a benign lookup produces: the stripped text when the
cell is found, the sentinel otherwise. -/
def fieldOf (r : Except Exn String) : String :=
  match r with
  | .ok s => pyStrip s
  | .error _ => "N/A"

theorem get_safe_text_benign (r : Except Exn String) (h : benignLookup r = true) :
    get_safe_text r "N/A" = .ok (fieldOf r) := by
  match r with
  | .ok s => rfl
  | .error .noSuchElement => rfl
  | .error .timeout => simp [benignLookup] at h
  | .error .other => simp [benignLookup] at h

/-- C1 counterexample: the claim reads the race number from the RaceNo
query parameter, under which the URL with RaceNo=3&Foo=1 has race number
3; the code keys it 0 because the trailing substring 3&Foo=1 is not all
digits, so the visit order has claim-race-numbers 3 then 2 — not
ascending.  (Python sorted is stable, so the two key-0 and key-2 URLs
keep this order.) -/
theorem c1_race_order_counterexample :
    sortedRaceUrls
        ["https://racing.hkjc.com/LocalResults.aspx?RaceNo=3&Foo=1",
         "https://racing.hkjc.com/LocalResults.aspx?RaceNo=2"] =
      ["https://racing.hkjc.com/LocalResults.aspx?RaceNo=3&Foo=1",
       "https://racing.hkjc.com/LocalResults.aspx?RaceNo=2"] ∧
    claimRaceNo "https://racing.hkjc.com/LocalResults.aspx?RaceNo=3&Foo=1" = 3 ∧
    claimRaceNo "https://racing.hkjc.com/LocalResults.aspx?RaceNo=2" = 2 ∧
    ¬ claimRaceNo "https://racing.hkjc.com/LocalResults.aspx?RaceNo=3&Foo=1" ≤
        claimRaceNo "https://racing.hkjc.com/LocalResults.aspx?RaceNo=2" := by
  refine ⟨by decide, by decide, by decide, by decide⟩

/-- C1 amended: for every input order of the candidate URLs, the visit
sequence produced by the sort is ascending in the race key used by the code — the
integer value of the trailing substring after the last RaceNo= when that
substring is all digits, and 0 otherwise — and is a permutation of the
input. -/
theorem c1_race_order_amended (urls : List String) :
    List.Sorted raceNoLe (sortedRaceUrls urls) ∧ (sortedRaceUrls urls).Perm urls :=
  ⟨List.sorted_insertionSort raceNoLe urls, List.perm_insertionSort raceNoLe urls⟩

/-- C2 counterexample: with an input order placing a RaceNo=0 link before
a link with no RaceNo identifier at all, the stable sort keeps both key-0
URLs in input order, so the identifier-less link is NOT placed before
every numbered link. -/
theorem c2_unnumbered_first_counterexample :
    sortedRaceUrls
        ["https://racing.hkjc.com/LocalResults.aspx?RaceDate=01/01/2019&RaceNo=0",
         "https://racing.hkjc.com/LocalResults.aspx?RaceDate=01/01/2019"] =
      ["https://racing.hkjc.com/LocalResults.aspx?RaceDate=01/01/2019&RaceNo=0",
       "https://racing.hkjc.com/LocalResults.aspx?RaceDate=01/01/2019"] ∧
    listContains SEP
        "https://racing.hkjc.com/LocalResults.aspx?RaceDate=01/01/2019&RaceNo=0".toList
      = true ∧
    isdigitL (splitLast
        "https://racing.hkjc.com/LocalResults.aspx?RaceDate=01/01/2019&RaceNo=0".toList)
      = true ∧
    listContains SEP
        "https://racing.hkjc.com/LocalResults.aspx?RaceDate=01/01/2019".toList
      = false := by
  refine ⟨by decide, by decide, by decide, by decide⟩

/-- C2 amended: in the output every URL keyed 0 (which includes every link
lacking an identifiable race number) precedes every URL with a positive
race key — equivalently, any URL appearing after a key-0 URL is itself
keyed 0 — and links with identifiers 3, 1, 2 come out in the order
1, 2, 3. -/
theorem c2_unnumbered_first_amended :
    (∀ (urls : List String) (i j : Nat), i < j → j < (sortedRaceUrls urls).length →
       raceNoKey ((sortedRaceUrls urls).getD j "") = 0 →
       raceNoKey ((sortedRaceUrls urls).getD i "") = 0) ∧
    sortedRaceUrls
        ["https://racing.hkjc.com/LocalResults.aspx?RaceDate=01/01/2019&RaceNo=3",
         "https://racing.hkjc.com/LocalResults.aspx?RaceDate=01/01/2019&RaceNo=1",
         "https://racing.hkjc.com/LocalResults.aspx?RaceDate=01/01/2019&RaceNo=2"] =
      ["https://racing.hkjc.com/LocalResults.aspx?RaceDate=01/01/2019&RaceNo=1",
       "https://racing.hkjc.com/LocalResults.aspx?RaceDate=01/01/2019&RaceNo=2",
       "https://racing.hkjc.com/LocalResults.aspx?RaceDate=01/01/2019&RaceNo=3"] := by
  constructor
  · intro urls i j hij hj hkey
    have hi : i < (sortedRaceUrls urls).length := Nat.lt_trans hij hj
    have hgi : (sortedRaceUrls urls).getD i "" = (sortedRaceUrls urls)[i] := by
      simp [List.getD_eq_getElem?_getD, List.getElem?_eq_getElem hi]
    have hgj : (sortedRaceUrls urls).getD j "" = (sortedRaceUrls urls)[j] := by
      simp [List.getD_eq_getElem?_getD, List.getElem?_eq_getElem hj]
    have hs := List.sorted_insertionSort raceNoLe urls
    have hp := List.pairwise_iff_getElem.mp hs i j hi hj hij
    rw [hgj] at hkey
    rw [hgi]
    exact Nat.le_zero.mp (by rw [← hkey]; exact hp)
  · decide

/-- C2 amended witness: in the sorted list of the counterexample pair, the
URL at position 1 is keyed 0, so the amended theorem forces the URL at
position 0 to be keyed 0 as well. -/
theorem c2_unnumbered_first_amended_witness :
    raceNoKey ((sortedRaceUrls
        ["https://racing.hkjc.com/LocalResults.aspx?RaceDate=01/01/2019&RaceNo=0",
         "https://racing.hkjc.com/LocalResults.aspx?RaceDate=01/01/2019"]).getD 0 "") = 0 :=
  c2_unnumbered_first_amended.1
    ["https://racing.hkjc.com/LocalResults.aspx?RaceDate=01/01/2019&RaceNo=0",
     "https://racing.hkjc.com/LocalResults.aspx?RaceDate=01/01/2019"]
    0 1 (by decide) (by decide) (by decide)

/-- C3 counterexample: an unexpected (non-timeout, non-NoSuchElement)
failure during race-URL discovery — which happens on line 112, outside
every try block — is not caught at the meet level: processing the date
ends in an aborted run, not in a logged skip to the next date. -/
theorem c3_meet_catch_counterexample :
    processDate
        ⟨false, none, some .noSuchElement, .error .other,
         fun _ => ⟨none, some .noSuchElement, .ok "", .ok "", .ok "", .ok "", .ok "", .ok []⟩⟩
        "01/01/2019"
        "https://racing.hkjc.com/LocalResults.aspx?RaceDate=01/01/2019" =
      (.aborted .other, 1) := rfl

/-- C3 amended: only landing-page load failures are caught at the meet
level (the date is skipped and the run continues); failures inside
per-race performance-table extraction are caught per race (the meet still
completes); but an unexpected failure during race-URL discovery, during
the no-race check, a non-timeout failure loading a race page, or a
non-NoSuchElement failure during race-info extraction (finding the info
table or looking up one of its cells) propagates uncaught and aborts the
entire run. -/
theorem c3_meet_catch_amended :
    (∀ (menv : MeetEnv) (d u : String), menv.fileExists = false →
       menv.landingLoad = some .other →
       processDate menv d u = (.skippedLandingError, 1)) ∧
    (∀ (menv : MeetEnv) (d u : String), menv.fileExists = false →
       menv.landingLoad = none → menv.noRaceFind = some .noSuchElement →
       menv.discovery = .error .other →
       processDate menv d u = (.aborted .other, 1)) ∧
    (∀ (menv : MeetEnv) (d u : String), menv.fileExists = false →
       menv.landingLoad = none → menv.noRaceFind = some .noSuchElement →
       menv.discovery = .ok [] → (menv.race u).load = some .other →
       (processDate menv d u).1 = .aborted .other) ∧
    (∀ (menv : MeetEnv) (d u : String), menv.fileExists = false →
       menv.landingLoad = none → menv.noRaceFind = some .noSuchElement →
       menv.discovery = .ok [] → (menv.race u).load = none →
       (menv.race u).infoFind = some .noSuchElement →
       (menv.race u).perfRows = .error .other →
       (processDate menv d u).1 = .completed [] false) ∧
    (∀ (menv : MeetEnv) (d u : String), menv.fileExists = false →
       menv.landingLoad = none → menv.noRaceFind = some .other →
       processDate menv d u = (.aborted .other, 1)) ∧
    (∀ (menv : MeetEnv) (d u : String), menv.fileExists = false →
       menv.landingLoad = none → menv.noRaceFind = some .noSuchElement →
       menv.discovery = .ok [] → (menv.race u).load = none →
       (menv.race u).infoFind = some .other →
       (processDate menv d u).1 = .aborted .other) ∧
    (∀ (menv : MeetEnv) (d u : String), menv.fileExists = false →
       menv.landingLoad = none → menv.noRaceFind = some .noSuchElement →
       menv.discovery = .ok [] → (menv.race u).load = none →
       (menv.race u).infoFind = none →
       benignLookup (menv.race u).headerCell = true →
       benignLookup (menv.race u).detailsCell = true →
       benignLookup (menv.race u).nameCell = true →
       (menv.race u).goingCell = .error .other →
       (processDate menv d u).1 = .aborted .other) := by
  have hurls : ∀ u : String, sortedRaceUrls (racePageUrls u []) = [u] := by
    intro u
    simp [racePageUrls, sortedRaceUrls, List.foldl]
  refine ⟨?_, ?_, ?_, ?_, ?_, ?_, ?_⟩
  · intro menv d u h1 h2
    simp [processDate, h1, h2]
  · intro menv d u h1 h2 h3 h4
    simp [processDate, h1, h2, h3, h4]
  · intro menv d u h1 h2 h3 h4 h5
    simp [processDate, h1, h2, h3, h4, hurls, processRaces, processRace, h5]
  · intro menv d u h1 h2 h3 h4 h5 h6 h7
    simp [processDate, h1, h2, h3, h4, hurls, processRaces, processRace, h5,
      extractRaceInfo, h6, h7]
  · intro menv d u h1 h2 h3
    simp [processDate, h1, h2, h3]
  · intro menv d u h1 h2 h3 h4 h5 h6
    simp [processDate, h1, h2, h3, h4, hurls, processRaces, processRace, h5,
      extractRaceInfo, h6]
  · intro menv d u h1 h2 h3 h4 h5 h6 h7a h7b h7c h8
    have hinfo : extractRaceInfo (menv.race u) = .error .other := by
      rw [extractRaceInfo, h6, get_safe_text_benign _ h7a, get_safe_text_benign _ h7b,
        get_safe_text_benign _ h7c, h8]
      rfl
    simp [processDate, h1, h2, h3, h4, hurls, processRaces, processRace, h5, hinfo]

/-- C3 amended witness: the seven scopes of the amended claim at concrete
environments — landing failure skipped, discovery failure aborting, race
load failure aborting, performance-table failure caught, no-race check
failure aborting, race-info table-find failure aborting, and race-info
cell-lookup failure aborting. -/
theorem c3_meet_catch_amended_witness :
    processDate
        ⟨false, some .other, some .noSuchElement, .ok [],
         fun _ => ⟨none, some .noSuchElement, .ok "", .ok "", .ok "", .ok "", .ok "", .ok []⟩⟩
        "01/01/2019" "u" = (.skippedLandingError, 1) ∧
    processDate
        ⟨false, none, some .noSuchElement, .error .other,
         fun _ => ⟨none, some .noSuchElement, .ok "", .ok "", .ok "", .ok "", .ok "", .ok []⟩⟩
        "01/01/2019" "u" = (.aborted .other, 1) ∧
    (processDate
        ⟨false, none, some .noSuchElement, .ok [],
         fun _ => ⟨some .other, some .noSuchElement, .ok "", .ok "", .ok "", .ok "", .ok "",
           .ok []⟩⟩
        "01/01/2019" "u").1 = .aborted .other ∧
    (processDate
        ⟨false, none, some .noSuchElement, .ok [],
         fun _ => ⟨none, some .noSuchElement, .ok "", .ok "", .ok "", .ok "", .ok "",
           .error .other⟩⟩
        "01/01/2019" "u").1 = .completed [] false ∧
    processDate
        ⟨false, none, some .other, .ok [],
         fun _ => ⟨none, some .noSuchElement, .ok "", .ok "", .ok "", .ok "", .ok "", .ok []⟩⟩
        "01/01/2019" "u" = (.aborted .other, 1) ∧
    (processDate
        ⟨false, none, some .noSuchElement, .ok [],
         fun _ => ⟨none, some .other, .ok "", .ok "", .ok "", .ok "", .ok "", .ok []⟩⟩
        "01/01/2019" "u").1 = .aborted .other ∧
    (processDate
        ⟨false, none, some .noSuchElement, .ok [],
         fun _ => ⟨none, none, .ok "Race 1", .ok "1200M", .ok "Cup", .error .other, .ok "Turf",
           .ok []⟩⟩
        "01/01/2019" "u").1 = .aborted .other :=
  ⟨c3_meet_catch_amended.1 _ _ _ rfl rfl,
   c3_meet_catch_amended.2.1 _ _ _ rfl rfl rfl rfl,
   c3_meet_catch_amended.2.2.1 _ _ _ rfl rfl rfl rfl rfl,
   c3_meet_catch_amended.2.2.2.1 _ _ _ rfl rfl rfl rfl rfl rfl rfl,
   c3_meet_catch_amended.2.2.2.2.1 _ _ _ rfl rfl rfl,
   c3_meet_catch_amended.2.2.2.2.2.1 _ _ _ rfl rfl rfl rfl rfl rfl,
   c3_meet_catch_amended.2.2.2.2.2.2 _ _ _ rfl rfl rfl rfl rfl rfl rfl rfl rfl rfl⟩

/-- C4: when the output file for a date already exists, the date is
skipped before any probing: zero page loads are performed and no output
state is produced for that date. -/
theorem c4_skip_existing (menv : MeetEnv) (meetDate initialUrl : String)
    (h : menv.fileExists = true) :
    processDate menv meetDate initialUrl = (.skippedExisting, 0) := by
  simp [processDate, h]

/-- C4 witness: a concrete environment whose output file exists. -/
theorem c4_skip_existing_witness :
    processDate
        ⟨true, none, some .noSuchElement, .ok [],
         fun _ => ⟨none, some .noSuchElement, .ok "", .ok "", .ok "", .ok "", .ok "", .ok []⟩⟩
        "01/01/2019" "u" = (.skippedExisting, 0) :=
  c4_skip_existing _ _ _ rfl

/-- C5: a body row splitting into fewer than 12 cells yields no
HorseResultRow (silently dropped), and a row splitting into exactly 12
cells yields exactly one. -/
theorem c5_row_guard :
    (∀ (meetDate raceUrl : String) (info : RaceInfo) (cols : List Cell),
       cols.length < 12 → processRow meetDate raceUrl info cols = none) ∧
    (∀ (meetDate raceUrl : String) (info : RaceInfo) (cols : List Cell),
       cols.length = 12 → (processRow meetDate raceUrl info cols).isSome = true) := by
  constructor
  · intro d u info cols h
    simp [processRow, h]
  · intro d u info cols h
    rw [processRow, if_neg (by omega)]
    rfl

/-- C5 witness: an 11-cell row emits nothing; a 12-cell row emits one
record. -/
theorem c5_row_guard_witness :
    processRow "01/01/2019" "u" raceInfoNA (List.replicate 11 emptyCell) = none ∧
    (processRow "01/01/2019" "u" raceInfoNA (List.replicate 12 emptyCell)).isSome = true :=
  ⟨c5_row_guard.1 _ _ _ _ (by decide), c5_row_guard.2 _ _ _ _ (by decide)⟩

/-- C6: a horse/jockey/trainer cell containing an anchor yields the
stripped visible text of the anchor and the anchor target; a cell with no
anchor yields the stripped plain text of the cell and the sentinel link. -/
theorem c6_cell_extraction :
    (∀ (cell : Cell) (a : Anchor), cell.anchor = some a →
       extract_horse_jockey_trainer_info cell = (pyStrip a.text, a.href)) ∧
    (∀ cell : Cell, cell.anchor = none →
       extract_horse_jockey_trainer_info cell = (pyStrip cell.text, "N/A")) := by
  constructor
  · intro cell a h
    simp [extract_horse_jockey_trainer_info, h]
  · intro cell h
    simp [extract_horse_jockey_trainer_info, h]

/-- C6 witness: the Silver Fox example from the spec, in both variants. -/
theorem c6_cell_extraction_witness :
    extract_horse_jockey_trainer_info ⟨"", some ⟨"Silver Fox", "/horse/123"⟩, []⟩ =
      ("Silver Fox", "/horse/123") ∧
    extract_horse_jockey_trainer_info ⟨"Silver Fox", none, []⟩ = ("Silver Fox", "N/A") := by
  constructor
  · rw [c6_cell_extraction.1 ⟨"", some ⟨"Silver Fox", "/horse/123"⟩, []⟩
      ⟨"Silver Fox", "/horse/123"⟩ rfl]
    decide
  · rw [c6_cell_extraction.2 ⟨"Silver Fox", none, []⟩ rfl]
    decide

/-- C7: when the race-info table is found and each cell lookup either
succeeds or fails with NoSuchElementException, extraction succeeds and
each of the five fields independently gets the stripped text of its own cell,
or the sentinel for exactly the cells that were missing — a missing field
never aborts extraction of the others. -/
theorem c7_field_independence (renv : RaceEnv) (h0 : renv.infoFind = none)
    (h1 : benignLookup renv.headerCell = true) (h2 : benignLookup renv.detailsCell = true)
    (h3 : benignLookup renv.nameCell = true) (h4 : benignLookup renv.goingCell = true)
    (h5 : benignLookup renv.courseCell = true) :
    extractRaceInfo renv =
      .ok ⟨fieldOf renv.headerCell, fieldOf renv.detailsCell, fieldOf renv.nameCell,
        fieldOf renv.goingCell, fieldOf renv.courseCell⟩ := by
  rw [extractRaceInfo, h0, get_safe_text_benign _ h1, get_safe_text_benign _ h2,
    get_safe_text_benign _ h3, get_safe_text_benign _ h4, get_safe_text_benign _ h5]

/-- C7 witness: the going cell is missing, the other four are found; the
record carries the sentinel for going only. -/
theorem c7_field_independence_witness :
    extractRaceInfo
        ⟨none, none, .ok "Race 1", .ok "1200M", .ok "Cup", .error .noSuchElement, .ok "Turf",
         .ok []⟩ =
      .ok ⟨"Race 1", "1200M", "Cup", "N/A", "Turf"⟩ := by
  rw [c7_field_independence
    ⟨none, none, .ok "Race 1", .ok "1200M", .ok "Cup", .error .noSuchElement, .ok "Turf",
     .ok []⟩
    rfl rfl rfl rfl rfl rfl]
  rfl

/-- C8: the landing-page URL is always a member of the candidate set, so
the ordered list of race pages to visit is never empty and contains the
landing page even when no race links were discovered. -/
theorem c8_landing_included (initialUrl : String) (hrefs : List (Option String)) :
    initialUrl ∈ racePageUrls initialUrl hrefs ∧
    initialUrl ∈ sortedRaceUrls (racePageUrls initialUrl hrefs) ∧
    sortedRaceUrls (racePageUrls initialUrl hrefs) ≠ [] := by
  have h1 : initialUrl ∈ racePageUrls initialUrl hrefs :=
    mem_foldl_addHref hrefs [initialUrl] initialUrl (by simp)
  have h2 : initialUrl ∈ sortedRaceUrls (racePageUrls initialUrl hrefs) :=
    (List.perm_insertionSort raceNoLe (racePageUrls initialUrl hrefs)).mem_iff.mpr h1
  exact ⟨h1, h2, List.ne_nil_of_mem h2⟩

/-- C9: the RunningPosition field of every emitted row is the
space-separated concatenation, in document order, of the non-empty
stripped texts of the sub-elements in the nested container of the
running-position cell. -/
theorem c9_running_position (meetDate raceUrl : String) (info : RaceInfo)
    (cols : List Cell) (hd : HorseData)
    (h : processRow meetDate raceUrl info cols = some hd) :
    hd.runningPosition =
      String.intercalate " "
        (((cols.getD 9 emptyCell).subdivs.map pyStrip).filter (fun s => s ≠ "")) := by
  rw [processRow] at h
  split at h
  · exact absurd h (by simp)
  · simp only [Option.some.injEq] at h
    subst h
    rfl

/-- C9 witness: a 12-cell row whose running-position cell holds the
sub-element texts 4, an all-blank entry, 3, and an empty entry; the field
becomes the two non-empty stripped texts joined by one space. -/
theorem c9_running_position_witness :
    ∃ hd : HorseData,
      processRow "01/01/2019" "u" raceInfoNA
          (List.replicate 9 emptyCell ++ [⟨"", none, ["4", "  ", " 3", ""]⟩] ++
            List.replicate 2 emptyCell) = some hd ∧
      hd.runningPosition = "4 3" := by
  cases hps : processRow "01/01/2019" "u" raceInfoNA
      (List.replicate 9 emptyCell ++ [⟨"", none, ["4", "  ", " 3", ""]⟩] ++
        List.replicate 2 emptyCell) with
  | none =>
    have : (processRow "01/01/2019" "u" raceInfoNA
        (List.replicate 9 emptyCell ++ [⟨"", none, ["4", "  ", " 3", ""]⟩] ++
          List.replicate 2 emptyCell)).isSome = true := by decide
    rw [hps] at this
    simp at this
  | some hd =>
    refine ⟨hd, rfl, ?_⟩
    rw [c9_running_position "01/01/2019" "u" raceInfoNA
      (List.replicate 9 emptyCell ++ [⟨"", none, ["4", "  ", " 3", ""]⟩] ++
        List.replicate 2 emptyCell) hd hps]
    decide

/-- C10: the sort key equals the integer value of the substring following
the last occurrence of RaceNo= exactly when that entire trailing
substring consists of decimal digits and 0 otherwise; in particular
RaceNo=3&Foo=1 is keyed 0, not 3, while RaceNo=3 is keyed 3. -/
theorem c10_trailing_digits_key :
    (∀ url : String, raceNoKey url = raceNoKeySpec url) ∧
    raceNoKey "https://racing.hkjc.com/LocalResults.aspx?RaceNo=3&Foo=1" = 0 ∧
    raceNoKey "https://racing.hkjc.com/LocalResults.aspx?RaceNo=3" = 3 :=
  ⟨raceNoKey_eq_spec, by decide, by decide⟩
